import Mathlib

/-!
Verification of the kitsune playback core: the playback queue
(`internal/ui/queue.go`) and the playback controller (`internal/player`,
the `Player` type).  Each Go method is embedded as a pure Lean function on
an explicit state record; Go `int` fields become `Int`, slices become
`List`, nilable pointers become `Option`, and the capacity-1 `done`
channel becomes a `Bool` occupancy flag.
-/

namespace Kitsune

/-- A track in the playback queue (`QueueTrack` in queue.go). -/
structure QueueTrack where
  id         : String
  title      : String
  artist     : String
  album      : String
  albumID    : String
  durationMs : Int
  format     : String
deriving Repr, DecidableEq

/-- The playback queue panel state (`Queue` in queue.go). -/
structure Queue where
  tracks  : List QueueTrack
  current : Int   -- index of currently playing track (-1 = nothing playing)
  cursor  : Int
  offset  : Int
  width   : Int
  height  : Int
  focused : Bool
deriving Repr, DecidableEq

namespace Queue

/-- Embeds `NewQueue` in queue.go: an empty queue with `current = -1`
(all other fields zero-valued in Go). -/
def newQueue : Queue :=
  { tracks := [], current := -1, cursor := 0, offset := 0,
    width := 0, height := 0, focused := false }

/-- Embeds `scrollIntoView` in queue.go: adjusts only `offset` so the cursor is
within the visible window. -/
def scrollIntoView (q : Queue) : Queue :=
  if q.height ≤ 2 then q
  else
    let listHeight := q.height - 2
    let q1 := if q.cursor < q.offset then { q with offset := q.cursor } else q
    if q1.cursor ≥ q1.offset + listHeight then
      { q1 with offset := q1.cursor - listHeight + 1 }
    else q1

/-- Embeds `Queue.Replace` in queue.go: installs `tracks`, sets both `current`
and `cursor` to `startIdx` (no clamping). -/
def replace (q : Queue) (tracks : List QueueTrack) (startIdx : Int) : Queue :=
  scrollIntoView { q with tracks := tracks, current := startIdx, cursor := startIdx }

/-- Embeds `Queue.Len` in queue.go. -/
def lenQ (q : Queue) : Int := q.tracks.length

/-- Embeds `Queue.Current` in queue.go: the currently playing track, or `none`. -/
def currentTrack (q : Queue) : Option QueueTrack :=
  if 0 ≤ q.current ∧ q.current < q.tracks.length then
    q.tracks.get? q.current.toNat
  else none

/-- Embeds `Queue.Next` in queue.go: advance and return the new current track,
else set `current = -1` and return `none`.  Returns (result, new state). -/
def next (q : Queue) : Option QueueTrack × Queue :=
  if q.current + 1 < (q.tracks.length : Int) then
    let q' := { q with current := q.current + 1 }
    (q'.tracks.get? q'.current.toNat, q')
  else
    (none, { q with current := -1 })

/-- Embeds `Queue.JumpTo` in queue.go. -/
def jumpTo (q : Queue) : Option QueueTrack × Queue :=
  if 0 ≤ q.cursor ∧ q.cursor < (q.tracks.length : Int) then
    let q' := { q with current := q.cursor }
    (q'.tracks.get? q'.current.toNat, q')
  else (none, q)

/-- Embeds `Queue.Remove` in queue.go: remove the track at the cursor; returns
(whether the currently playing track was removed, new state). -/
def remove (q : Queue) : Bool × Queue :=
  if q.cursor < 0 ∨ q.cursor ≥ (q.tracks.length : Int) then (false, q)
  else
    let removedCurrent := q.cursor = q.current
    let tracks' := q.tracks.eraseIdx q.cursor.toNat
    let current' :=
      if q.current > q.cursor then q.current - 1
      else if removedCurrent then -1
      else q.current
    let cursor' :=
      if q.cursor ≥ (tracks'.length : Int) then max 0 ((tracks'.length : Int) - 1)
      else q.cursor
    (decide removedCurrent,
     scrollIntoView { q with tracks := tracks', current := current', cursor := cursor' })

/-- Swap two positions of a list (the effect of Go's parallel assignment
`l[i], l[j] = l[j], l[i]` when both indices are in bounds). -/
def listSwap (l : List QueueTrack) (i j : Nat) : List QueueTrack :=
  match l.get? i, l.get? j with
  | some a, some b => (l.set i b).set j a
  | _, _ => l

/-- Embeds `Queue.MoveUp` in queue.go: swap the track at the cursor with the one
above it, adjusting `current` and moving the cursor with the track. -/
def moveUp (q : Queue) : Queue :=
  if q.cursor ≤ 0 ∨ q.cursor ≥ (q.tracks.length : Int) then q
  else
    let tracks' := listSwap q.tracks q.cursor.toNat (q.cursor.toNat - 1)
    let current' :=
      if q.current = q.cursor then q.current - 1
      else if q.current = q.cursor - 1 then q.current + 1
      else q.current
    scrollIntoView { q with tracks := tracks', current := current', cursor := q.cursor - 1 }

/-- Embeds `Queue.MoveDown` in queue.go: swap the track at the cursor with the one
below it, adjusting `current` and moving the cursor with the track. -/
def moveDown (q : Queue) : Queue :=
  if q.cursor < 0 ∨ q.cursor ≥ (q.tracks.length : Int) - 1 then q
  else
    let tracks' := listSwap q.tracks q.cursor.toNat (q.cursor.toNat + 1)
    let current' :=
      if q.current = q.cursor then q.current + 1
      else if q.current = q.cursor + 1 then q.current - 1
      else q.current
    scrollIntoView { q with tracks := tracks', current := current', cursor := q.cursor + 1 }

/-- Embeds `Queue.CursorUp` in queue.go. -/
def cursorUp (q : Queue) : Queue :=
  if q.cursor > 0 then scrollIntoView { q with cursor := q.cursor - 1 } else q

/-- Embeds `Queue.CursorDown` in queue.go. -/
def cursorDown (q : Queue) : Queue :=
  if q.cursor < (q.tracks.length : Int) - 1 then
    scrollIntoView { q with cursor := q.cursor + 1 }
  else q

/-- The queue invariant from the spec: when the queue is non-empty,
`current ∈ [-1] ∪ [0, len-1]` and `cursor ∈ [0, len-1]`. -/
def inv (q : Queue) : Prop :=
  q.tracks = [] ∨
    ((q.current = -1 ∨ (0 ≤ q.current ∧ q.current < (q.tracks.length : Int))) ∧
     0 ≤ q.cursor ∧ q.cursor < (q.tracks.length : Int))

instance (q : Queue) : Decidable (inv q) := by
  unfold inv; infer_instance

/-- The queue mutators named by the spec's invariant property. -/
inductive Op where
  | replace (tracks : List QueueTrack) (startIdx : Int)
  | next
  | remove
  | moveUp
  | moveDown
deriving Repr

/-- Apply one mutator, discarding the returned value. -/
def applyOp (q : Queue) : Op → Queue
  | .replace ts i => q.replace ts i
  | .next => (q.next).2
  | .remove => (q.remove).2
  | .moveUp => q.moveUp
  | .moveDown => q.moveDown

/-- Apply a sequence of mutators in order. -/
def applyOps (q : Queue) (ops : List Op) : Queue :=
  ops.foldl applyOp q

/-- A `Replace` argument is valid when its start index is a valid index of
the new (non-empty) track list; any argument is valid for an empty list. -/
def Op.valid : Op → Prop
  | .replace ts i => ts = [] ∨ (0 ≤ i ∧ i < (ts.length : Int))
  | _ => True

instance : ∀ o : Op, Decidable o.valid := by
  intro o; cases o <;> (unfold Op.valid; infer_instance)

end Queue

/-! ## Player (internal/player, `part_009`) -/

/-- Embeds `sampleRate` in player.go: the speaker's fixed output rate, 44100 Hz. -/
def sampleRate : ℕ := 44100

/-- Embeds `NowPlaying` in player.go. -/
structure NowPlaying where
  trackID    : String
  title      : String
  artist     : String
  album      : String
  albumID    : String
  year       : Int
  durationMs : Int
  format     : String
deriving Repr, DecidableEq

/-- The mutable state of `Player` in player.go.  Nilable pointers become
`Option`s; the closeable `streamer` and HTTP `body` are tracked as
open/closed flags; `trackerPos` is the position tracker's frame counter
(present exactly when `p.tracker != nil`); `ctrl` records the pause flag of
the `beep.Ctrl` when one is installed; `doneSignal` is the occupancy of the
capacity-1 `done` channel. -/
structure PlayerState where
  current      : Option NowPlaying
  ctrlPaused   : Option Bool
  streamerOpen : Bool
  bodyOpen     : Bool
  trackerPos   : Option ℕ
  playing      : Bool
  doneSignal   : Bool
deriving Repr, DecidableEq

namespace PlayerState

/-- The state of a freshly constructed player (`New` in player.go). -/
def initial : PlayerState :=
  { current := none, ctrlPaused := none, streamerOpen := false,
    bodyOpen := false, trackerPos := none, playing := false,
    doneSignal := false }

/-- Embeds `Player.cleanup` in player.go: closes the streamer and body (when
present) and clears all session fields.  The `done` channel is untouched. -/
def cleanup (s : PlayerState) : PlayerState :=
  { s with streamerOpen := false, bodyOpen := false, ctrlPaused := none,
           current := none, trackerPos := none, playing := false }

/-- Embeds `Player.Stop` in player.go: `speaker.Clear()` (sink-side, no field of
the player state) followed by `cleanup`. -/
def stop (s : PlayerState) : PlayerState := s.cleanup

/-- The environment's answer to one `Play` call: how the HTTP open and the
decoder initialization go.  `openResult = none` models a connection error;
`some code` the HTTP status.  `decodeRate = none` models a decoder
initialization failure; `some r` a successful decode at source rate `r`. -/
structure PlayEnv where
  openResult : Option ℕ
  decodeRate : Option ℕ
deriving Repr, DecidableEq

/-- The typed errors `Play` can return. -/
inductive PlayError where
  | connectError
  | statusError (code : ℕ)
  | decodeError
deriving Repr, DecidableEq

/-- Embeds `Player.Play` in player.go: stop the previous session; open the stream
(fail on connection error or non-200 status, closing the body in the latter
case); initialize the decoder (fail closing the body); then install the
pipeline (resampler when rates differ — absent from the state, it carries
no mutable field), register `info` as current, drain the `done` channel,
and hand the sequence to the speaker.  Returns the error or the new state
paired with the outcome. -/
def play (s : PlayerState) (env : PlayEnv) (info : NowPlaying) :
    Except PlayError PlayerState :=
  let s1 := s.stop
  match env.openResult with
  | none => .error .connectError
  | some code =>
    if code ≠ 200 then .error (.statusError code)
    else
      match env.decodeRate with
      | none => .error .decodeError
      | some _ =>
        .ok { s1 with current := some info, ctrlPaused := some false,
                      streamerOpen := true, bodyOpen := true,
                      trackerPos := some 0, playing := true,
                      doneSignal := false }

/-- The state after a `Play` call, whether it failed (the state is the one
left by the initial `Stop`) or succeeded. -/
def playState (s : PlayerState) (env : PlayEnv) (info : NowPlaying) : PlayerState :=
  match s.play env info with
  | .error _ => s.stop
  | .ok s' => s'

/-- Embeds `Player.TogglePause` in player.go: no-op without a ctrl; otherwise flip
the ctrl's pause flag and set `playing` to its negation. -/
def togglePause (s : PlayerState) : PlayerState :=
  match s.ctrlPaused with
  | none => s
  | some paused => { s with ctrlPaused := some (!paused), playing := paused }

/-- Embeds `Player.Current` in player.go. -/
def currentNP (s : PlayerState) : Option NowPlaying := s.current

/-- Embeds `Player.Elapsed` in player.go: frames consumed divided by the output
sample rate, as seconds (exact rational in the model); 0 with no tracker. -/
def elapsed (s : PlayerState) : ℚ :=
  match s.trackerPos with
  | none => 0
  | some pos => (pos : ℚ) / (sampleRate : ℚ)

/-- One render step of the speaker pulling `n` frames through the pipeline:
`beep.Ctrl.Stream` skips the wrapped streamer while paused, so
`positionTracker.Stream` (which adds the frame count to `pos`) runs only
when a session is installed and unpaused. -/
def renderStep (s : PlayerState) (n : ℕ) : PlayerState :=
  match s.ctrlPaused, s.trackerPos with
  | some false, some pos => { s with trackerPos := some (pos + n) }
  | _, _ => s

/-- A sequence of render steps. -/
def renderSteps (s : PlayerState) (ns : List ℕ) : PlayerState :=
  ns.foldl renderStep s

/-- The `beep.Callback` at the end of the sequence handed to the speaker:
runs when the stream is exhausted; sets `playing := false` and performs a
non-blocking send on the capacity-1 `done` channel (dropped if full).
It does not touch `current`, the tracker, the ctrl, or the open resources. -/
def onComplete (s : PlayerState) : PlayerState :=
  { s with playing := false,
           doneSignal := if s.doneSignal then s.doneSignal else true }

end PlayerState

/-! ## Concrete tracks for witnesses and counterexamples -/

/-- A sample track. -/
def trackA : QueueTrack := ⟨"A", "Track A", "", "", "", 0, "mp3"⟩

/-- A sample track. -/
def trackB : QueueTrack := ⟨"B", "Track B", "", "", "", 0, "mp3"⟩

/-- A sample track. -/
def trackC : QueueTrack := ⟨"C", "Track C", "", "", "", 0, "mp3"⟩

/-- A sample now-playing record. -/
def npA : NowPlaying := ⟨"A", "Track A", "", "", "", 2020, 3000, "mp3"⟩

/-! ## Queue lemmas -/

namespace Queue

theorem scrollIntoView_tracks (q : Queue) : (scrollIntoView q).tracks = q.tracks := by
  unfold scrollIntoView
  dsimp only
  split_ifs <;> rfl

theorem scrollIntoView_current (q : Queue) : (scrollIntoView q).current = q.current := by
  unfold scrollIntoView
  dsimp only
  split_ifs <;> rfl

theorem scrollIntoView_cursor (q : Queue) : (scrollIntoView q).cursor = q.cursor := by
  unfold scrollIntoView
  dsimp only
  split_ifs <;> rfl

theorem inv_scrollIntoView (q : Queue) : inv (scrollIntoView q) ↔ inv q := by
  unfold inv
  rw [scrollIntoView_tracks, scrollIntoView_current, scrollIntoView_cursor]

theorem listSwap_length (l : List QueueTrack) (i j : ℕ) :
    (listSwap l i j).length = l.length := by
  unfold listSwap
  split <;> simp

theorem inv_replace (q : Queue) (ts : List QueueTrack) (i : Int)
    (h : ts = [] ∨ (0 ≤ i ∧ i < (ts.length : Int))) :
    inv (q.replace ts i) := by
  rw [replace, inv_scrollIntoView]
  unfold inv
  rcases h with h | ⟨h0, h1⟩
  · exact Or.inl h
  · exact Or.inr ⟨Or.inr ⟨h0, h1⟩, h0, h1⟩

theorem inv_iff (q : Queue) :
    inv q ↔ (q.tracks.length = 0 ∨
      ((q.current = -1 ∨ (0 ≤ q.current ∧ q.current < (q.tracks.length : Int))) ∧
       0 ≤ q.cursor ∧ q.cursor < (q.tracks.length : Int))) := by
  unfold inv
  rw [List.length_eq_zero]

theorem inv_next (q : Queue) (h : inv q) : inv (q.next).2 := by
  rw [inv_iff] at h
  unfold next
  split_ifs with h1 <;> (rw [inv_iff]; dsimp only; omega)

theorem inv_remove (q : Queue) (h : inv q) : inv (q.remove).2 := by
  unfold remove
  dsimp only
  by_cases hg : q.cursor < 0 ∨ q.cursor ≥ (q.tracks.length : Int)
  · rw [if_pos hg]; exact h
  · rw [if_neg hg]
    push_neg at hg
    obtain ⟨hg0, hg1⟩ := hg
    have hlt : q.cursor.toNat < q.tracks.length := by omega
    have hlenN : (q.tracks.eraseIdx q.cursor.toNat).length = q.tracks.length - 1 := by
      rw [List.length_eraseIdx, if_pos hlt]
    dsimp only
    rw [inv_scrollIntoView, inv_iff] at *
    dsimp only
    rw [hlenN]
    split_ifs <;> omega

theorem inv_moveUp (q : Queue) (h : inv q) : inv q.moveUp := by
  unfold moveUp
  dsimp only
  by_cases hg : q.cursor ≤ 0 ∨ q.cursor ≥ (q.tracks.length : Int)
  · rw [if_pos hg]; exact h
  · rw [if_neg hg]
    push_neg at hg
    obtain ⟨hg0, hg1⟩ := hg
    rw [inv_scrollIntoView, inv_iff] at *
    dsimp only
    rw [listSwap_length]
    split_ifs <;> omega

theorem inv_moveDown (q : Queue) (h : inv q) : inv q.moveDown := by
  unfold moveDown
  dsimp only
  by_cases hg : q.cursor < 0 ∨ q.cursor ≥ (q.tracks.length : Int) - 1
  · rw [if_pos hg]; exact h
  · rw [if_neg hg]
    push_neg at hg
    obtain ⟨hg0, hg1⟩ := hg
    rw [inv_scrollIntoView, inv_iff] at *
    dsimp only
    rw [listSwap_length]
    split_ifs <;> omega

theorem inv_applyOp (q : Queue) (o : Op) (hq : inv q) (hv : o.valid) :
    inv (applyOp q o) := by
  cases o with
  | replace ts i => exact inv_replace q ts i hv
  | next => exact inv_next q hq
  | remove => exact inv_remove q hq
  | moveUp => exact inv_moveUp q hq
  | moveDown => exact inv_moveDown q hq

theorem listSwap_get?_snd (l : List QueueTrack) (i j : ℕ)
    (hi : i < l.length) (hj : j < l.length) :
    (listSwap l i j).get? j = l.get? i := by
  unfold listSwap
  simp only [List.get?_eq_getElem?]
  rw [List.getElem?_eq_getElem hi, List.getElem?_eq_getElem hj]
  dsimp only
  simp [List.getElem?_set, List.length_set, hj]

theorem listSwap_get?_fst (l : List QueueTrack) (i j : ℕ)
    (hi : i < l.length) (hj : j < l.length) :
    (listSwap l i j).get? i = l.get? j := by
  unfold listSwap
  simp only [List.get?_eq_getElem?]
  rw [List.getElem?_eq_getElem hi, List.getElem?_eq_getElem hj]
  dsimp only
  by_cases hij : j = i
  · subst hij
    simp [List.getElem?_set, List.length_set, hj]
  · simp [List.getElem?_set, List.length_set, hi, hij]

theorem listSwap_get?_other (l : List QueueTrack) (i j k : ℕ)
    (hki : k ≠ i) (hkj : k ≠ j) :
    (listSwap l i j).get? k = l.get? k := by
  unfold listSwap
  split
  · rw [List.get?_eq_getElem?, List.get?_eq_getElem?]
    simp [List.getElem?_set, (Ne.symm hki), (Ne.symm hkj)]
  · rfl

end Queue

/-- A three-track queue `[A,B,C]` with `current = 1` (B) and `cursor = 1`. -/
def qABC : Queue :=
  { tracks := [trackA, trackB, trackC], current := 1, cursor := 1,
    offset := 0, width := 0, height := 0, focused := false }

/-! ## Claim theorems: Queue -/

/-- C1 (counterexample to the claim as stated): with arbitrary arguments to
`Replace`, the invariant fails — `Replace([A], 5)` from the fresh queue
leaves `current = cursor = 5` on a one-element queue. -/
theorem queue_inv_fails_arbitrary_replace :
    ¬ Queue.inv (Queue.applyOps Queue.newQueue [Queue.Op.replace [trackA] 5]) := by
  decide

/-- C1 (amended): for every queue state satisfying the invariant and every
finite sequence of `Replace`/`Next`/`Remove`/`MoveUp`/`MoveDown` calls in
which each `Replace` is given a start index that is a valid index of its
(non-empty) new track list, the invariant is preserved: `current` stays in
`[-1] ∪ [0, len-1]` and `cursor` in `[0, len-1]` whenever the queue is
non-empty. -/
theorem queue_inv_preserved (q : Queue) (ops : List Queue.Op)
    (hq : Queue.inv q) (hv : ∀ o ∈ ops, o.valid) :
    Queue.inv (Queue.applyOps q ops) := by
  induction ops generalizing q with
  | nil => exact hq
  | cons o os ih =>
      exact ih (Queue.applyOp q o)
        (Queue.inv_applyOp q o hq (hv o (by simp)))
        (fun o' ho' => hv o' (by simp [ho']))

/-- Witness for C1: a concrete run of all five operations from the fresh
queue keeps the invariant. -/
theorem queue_inv_preserved_witness :
    Queue.inv (Queue.applyOps Queue.newQueue
      [Queue.Op.replace [trackA, trackB, trackC] 1, Queue.Op.moveDown,
       Queue.Op.next, Queue.Op.remove, Queue.Op.moveUp]) :=
  queue_inv_preserved Queue.newQueue
    [Queue.Op.replace [trackA, trackB, trackC] 1, Queue.Op.moveDown,
     Queue.Op.next, Queue.Op.remove, Queue.Op.moveUp]
    (by decide) (by decide)

/-- C6: `Next()` increments `current` and returns the new current track when
`current + 1` is in range; otherwise it sets `current = -1` and returns
`none` — it never wraps around to index 0. -/
theorem next_advances_or_ends (q : Queue) (hc : -1 ≤ q.current) :
    (q.current + 1 < (q.tracks.length : Int) →
      (q.next).2.current = q.current + 1 ∧
      (q.next).2.tracks = q.tracks ∧
      (q.next).1 = q.tracks.get? (q.current + 1).toNat ∧
      ((q.next).1).isSome = true) ∧
    ((q.tracks.length : Int) ≤ q.current + 1 →
      (q.next).1 = none ∧ (q.next).2.current = -1 ∧
      (q.next).2.tracks = q.tracks) := by
  unfold Queue.next
  constructor
  · intro h1
    rw [if_pos h1]
    dsimp only
    refine ⟨rfl, rfl, rfl, ?_⟩
    have hlt : (q.current + 1).toNat < q.tracks.length := by omega
    rw [List.get?_eq_getElem?, List.getElem?_eq_getElem hlt]
    rfl
  · intro h1
    rw [if_neg (by omega)]
    exact ⟨rfl, rfl, rfl⟩

/-- Witness for C6: on `[A,B,C]` with `current = 1`, `Next` advances to
index 2; with `current = 2` (via two `Next`s) it returns `none` and resets
to `-1`. -/
theorem next_advances_or_ends_witness :
    ((qABC.next).2.current = 1 + 1 ∧
     (qABC.next).2.tracks = qABC.tracks ∧
     (qABC.next).1 = qABC.tracks.get? 2 ∧
     ((qABC.next).1).isSome = true) ∧
    (((qABC.next).2.next).1 = none ∧ ((qABC.next).2.next).2.current = -1) := by
  constructor
  · exact (next_advances_or_ends qABC (by decide)).1 (by decide)
  · decide

/-- C4: with a valid cursor, `Remove()` of the entry at `current` reports
"removed current" and leaves `current = -1`; `Remove()` of an entry before
`current` decrements `current` by one and the previously-current track is
unchanged; `Remove()` of an entry after `current` leaves `current`
unchanged; afterwards the cursor is clamped to `[0, len-1]`, or `0` if the
queue becomes empty. -/
theorem remove_spec (q : Queue) (hq : Queue.inv q) (hne : q.tracks ≠ []) :
    (q.cursor = q.current →
       (q.remove).1 = true ∧ (q.remove).2.current = -1) ∧
    (q.cursor < q.current →
       (q.remove).2.current = q.current - 1 ∧
       (q.remove).2.tracks.get? (q.current - 1).toNat =
         q.tracks.get? q.current.toNat) ∧
    (q.current < q.cursor → (q.remove).2.current = q.current) ∧
    (0 ≤ (q.remove).2.cursor ∧
     ((q.remove).2.tracks = [] → (q.remove).2.cursor = 0) ∧
     ((q.remove).2.tracks ≠ [] →
        (q.remove).2.cursor < ((q.remove).2.tracks.length : Int))) := by
  rw [Queue.inv_iff] at hq
  have hlen : 0 < q.tracks.length := List.length_pos.mpr hne
  have hcs : 0 ≤ q.cursor ∧ q.cursor < (q.tracks.length : Int) := by omega
  have hcur : q.current = -1 ∨ (0 ≤ q.current ∧ q.current < (q.tracks.length : Int)) := by
    omega
  unfold Queue.remove
  rw [if_neg (by omega)]
  dsimp only
  rw [Queue.scrollIntoView_current, Queue.scrollIntoView_cursor,
      Queue.scrollIntoView_tracks]
  dsimp only
  have hlenN : (q.tracks.eraseIdx q.cursor.toNat).length = q.tracks.length - 1 := by
    rw [List.length_eraseIdx, if_pos (by omega)]
  refine ⟨?_, ?_, ?_, ?_, ?_, ?_⟩
  · intro h
    refine ⟨by simp [h], ?_⟩
    rw [if_neg (by omega), if_pos h]
  · intro h
    constructor
    · rw [if_pos (by omega)]
    · rw [List.get?_eq_getElem?, List.get?_eq_getElem?, List.getElem?_eraseIdx,
          if_neg (by omega)]
      have hix : (q.current - 1).toNat + 1 = q.current.toNat := by omega
      rw [hix]
  · intro h
    rw [if_neg (by omega), if_neg (by omega)]
  · split_ifs with h1
    · exact le_max_left 0 _
    · omega
  · intro h
    have h0 : (q.tracks.eraseIdx q.cursor.toNat).length = 0 := by rw [h]; rfl
    rw [if_pos (by omega), h0]
    decide
  · intro h
    have h1 : 0 < (q.tracks.eraseIdx q.cursor.toNat).length :=
      List.length_pos.mpr h
    split_ifs with h2
    · rw [max_eq_right (by omega)]
      omega
    · omega

/-- Witness for C4: removing the current entry of `[A,B,C]` (cursor =
current = 1) reports "removed current", sets `current = -1`, and leaves a
valid cursor. -/
theorem remove_spec_witness :
    ((qABC.remove).1 = true ∧ (qABC.remove).2.current = -1) ∧
    (0 ≤ (qABC.remove).2.cursor ∧
     ((qABC.remove).2.tracks ≠ [] →
        (qABC.remove).2.cursor < ((qABC.remove).2.tracks.length : Int))) := by
  have h := remove_spec qABC (by decide) (by decide)
  exact ⟨h.1 (by decide), h.2.2.2.1, h.2.2.2.2.2⟩

/-- C5: `MoveUp()` and `MoveDown()` preserve which track is current: when
`current ≥ 0` the track found at the new `current` is the track that was at
the old `current`, and `current = -1` is left alone; concretely on `[A,B,C]`
with `current = cursor = 1`, `MoveDown()` yields `[A,C,B]` with
`current = 2` (still B). -/
theorem move_preserves_current_track (q : Queue) :
    (0 ≤ q.current →
       (q.moveUp).tracks.get? (q.moveUp).current.toNat =
         q.tracks.get? q.current.toNat ∧
       (q.moveDown).tracks.get? (q.moveDown).current.toNat =
         q.tracks.get? q.current.toNat) ∧
    (q.current = -1 → (q.moveUp).current = -1 ∧ (q.moveDown).current = -1) ∧
    ((qABC.moveDown).tracks = [trackA, trackC, trackB] ∧
     (qABC.moveDown).current = 2) := by
  refine ⟨?_, ?_, by decide, by decide⟩
  · intro hc
    constructor
    · unfold Queue.moveUp
      by_cases hg : q.cursor ≤ 0 ∨ q.cursor ≥ (q.tracks.length : Int)
      · rw [if_pos hg]
      · rw [if_neg hg]
        push_neg at hg
        obtain ⟨hg0, hg1⟩ := hg
        dsimp only
        rw [Queue.scrollIntoView_current, Queue.scrollIntoView_tracks]
        dsimp only
        have hi : q.cursor.toNat < q.tracks.length := by omega
        have hj : q.cursor.toNat - 1 < q.tracks.length := by omega
        split_ifs with h1 h2
        · have hx : (q.current - 1).toNat = q.cursor.toNat - 1 := by omega
          rw [hx, Queue.listSwap_get?_snd q.tracks _ _ hi hj]
          have hy : q.cursor.toNat = q.current.toNat := by omega
          rw [hy]
        · have hx : (q.current + 1).toNat = q.cursor.toNat := by omega
          rw [hx, Queue.listSwap_get?_fst q.tracks _ _ hi hj]
          have hy : q.cursor.toNat - 1 = q.current.toNat := by omega
          rw [hy]
        · rw [Queue.listSwap_get?_other q.tracks _ _ _ (by omega) (by omega)]
    · unfold Queue.moveDown
      by_cases hg : q.cursor < 0 ∨ q.cursor ≥ (q.tracks.length : Int) - 1
      · rw [if_pos hg]
      · rw [if_neg hg]
        push_neg at hg
        obtain ⟨hg0, hg1⟩ := hg
        dsimp only
        rw [Queue.scrollIntoView_current, Queue.scrollIntoView_tracks]
        dsimp only
        have hi : q.cursor.toNat < q.tracks.length := by omega
        have hj : q.cursor.toNat + 1 < q.tracks.length := by omega
        split_ifs with h1 h2
        · have hx : (q.current + 1).toNat = q.cursor.toNat + 1 := by omega
          rw [hx, Queue.listSwap_get?_snd q.tracks _ _ hi hj]
          have hy : q.cursor.toNat = q.current.toNat := by omega
          rw [hy]
        · have hx : (q.current - 1).toNat = q.cursor.toNat := by omega
          rw [hx, Queue.listSwap_get?_fst q.tracks _ _ hi hj]
          have hy : q.cursor.toNat + 1 = q.current.toNat := by omega
          rw [hy]
        · rw [Queue.listSwap_get?_other q.tracks _ _ _ (by omega) (by omega)]
  · intro hc
    constructor
    · unfold Queue.moveUp
      by_cases hg : q.cursor ≤ 0 ∨ q.cursor ≥ (q.tracks.length : Int)
      · rw [if_pos hg]; exact hc
      · rw [if_neg hg]
        push_neg at hg
        dsimp only
        rw [Queue.scrollIntoView_current]
        dsimp only
        rw [if_neg (by omega), if_neg (by omega)]
        exact hc
    · unfold Queue.moveDown
      by_cases hg : q.cursor < 0 ∨ q.cursor ≥ (q.tracks.length : Int) - 1
      · rw [if_pos hg]; exact hc
      · rw [if_neg hg]
        push_neg at hg
        dsimp only
        rw [Queue.scrollIntoView_current]
        dsimp only
        rw [if_neg (by omega), if_neg (by omega)]
        exact hc

/-- Witness for C5: on `[A,B,C]` with `current = cursor = 1`, both moves
keep B current. -/
theorem move_preserves_current_track_witness :
    ((qABC.moveUp).tracks.get? (qABC.moveUp).current.toNat =
       qABC.tracks.get? qABC.current.toNat ∧
     (qABC.moveDown).tracks.get? (qABC.moveDown).current.toNat =
       qABC.tracks.get? qABC.current.toNat) ∧
    ((qABC.moveDown).tracks = [trackA, trackC, trackB] ∧
     (qABC.moveDown).current = 2) :=
  ⟨(move_preserves_current_track qABC).1 (by decide),
   (move_preserves_current_track qABC).2.2⟩

/-- C9: `MoveUp()`/`MoveDown()` move the cursor together with the moved
entry (one up resp. one down), so the selection stays on the same track;
at the boundaries (cursor 0 for `MoveUp`, cursor at the last index for
`MoveDown`) the whole queue state is left unchanged. -/
theorem move_cursor_follows (q : Queue) :
    (¬(q.cursor ≤ 0 ∨ q.cursor ≥ (q.tracks.length : Int)) →
       (q.moveUp).cursor = q.cursor - 1 ∧
       (q.moveUp).tracks.get? (q.moveUp).cursor.toNat =
         q.tracks.get? q.cursor.toNat) ∧
    (¬(q.cursor < 0 ∨ q.cursor ≥ (q.tracks.length : Int) - 1) →
       (q.moveDown).cursor = q.cursor + 1 ∧
       (q.moveDown).tracks.get? (q.moveDown).cursor.toNat =
         q.tracks.get? q.cursor.toNat) ∧
    (q.cursor = 0 → q.moveUp = q) ∧
    (q.cursor = (q.tracks.length : Int) - 1 → q.moveDown = q) := by
  refine ⟨?_, ?_, ?_, ?_⟩
  · intro hg
    unfold Queue.moveUp
    rw [if_neg hg]
    push_neg at hg
    rw [Queue.scrollIntoView_cursor, Queue.scrollIntoView_tracks]
    dsimp only
    refine ⟨rfl, ?_⟩
    have hi : q.cursor.toNat < q.tracks.length := by omega
    have hj : q.cursor.toNat - 1 < q.tracks.length := by omega
    have hx : (q.cursor - 1).toNat = q.cursor.toNat - 1 := by omega
    rw [hx, Queue.listSwap_get?_snd q.tracks _ _ hi hj]
  · intro hg
    unfold Queue.moveDown
    rw [if_neg hg]
    push_neg at hg
    rw [Queue.scrollIntoView_cursor, Queue.scrollIntoView_tracks]
    dsimp only
    refine ⟨rfl, ?_⟩
    have hi : q.cursor.toNat < q.tracks.length := by omega
    have hj : q.cursor.toNat + 1 < q.tracks.length := by omega
    have hx : (q.cursor + 1).toNat = q.cursor.toNat + 1 := by omega
    rw [hx, Queue.listSwap_get?_snd q.tracks _ _ hi hj]
  · intro h
    unfold Queue.moveUp
    rw [if_pos (Or.inl (by omega))]
  · intro h
    unfold Queue.moveDown
    rw [if_pos (Or.inr (by omega))]

/-- Witness for C9: interior moves on `[A,B,C]` (cursor 1) shift the cursor
with the selected track; `MoveUp` at cursor 0 and `MoveDown` at cursor 2
are no-ops. -/
theorem move_cursor_follows_witness :
    ((qABC.moveUp).cursor = qABC.cursor - 1 ∧
     (qABC.moveUp).tracks.get? (qABC.moveUp).cursor.toNat =
       qABC.tracks.get? qABC.cursor.toNat) ∧
    ((qABC.moveDown).cursor = qABC.cursor + 1 ∧
     (qABC.moveDown).tracks.get? (qABC.moveDown).cursor.toNat =
       qABC.tracks.get? qABC.cursor.toNat) ∧
    ({ qABC with cursor := 0 } : Queue).moveUp = { qABC with cursor := 0 } ∧
    ({ qABC with cursor := 2 } : Queue).moveDown = { qABC with cursor := 2 } :=
  ⟨(move_cursor_follows qABC).1 (by decide),
   (move_cursor_follows qABC).2.1 (by decide),
   (move_cursor_follows { qABC with cursor := 0 }).2.2.1 (by decide),
   (move_cursor_follows { qABC with cursor := 2 }).2.2.2 (by decide)⟩

/-- C10: `Next()` called when `current = -1` on a non-empty queue sets
`current = 0` and returns the first track — advancing after the playing
entry was removed restarts from the head of the queue. -/
theorem next_restarts_from_head (q : Queue) (hc : q.current = -1)
    (hne : q.tracks ≠ []) :
    (q.next).2.current = 0 ∧ (q.next).1 = q.tracks.head? := by
  have hlen : 0 < q.tracks.length := List.length_pos.mpr hne
  unfold Queue.next
  rw [hc]
  rw [if_pos (by omega)]
  dsimp only
  refine ⟨by norm_num, ?_⟩
  have h0 : ((-1 : Int) + 1).toNat = 0 := by decide
  rw [h0, List.get?_eq_getElem?, ← List.head?_eq_getElem?]

/-- Witness for C10: after removing the current track of `[A,B,C]`
(cursor = current = 1), `Next` returns track A and sets `current = 0`. -/
theorem next_restarts_from_head_witness :
    ((qABC.remove).2.next).2.current = 0 ∧
    ((qABC.remove).2.next).1 = (qABC.remove).2.tracks.head? :=
  next_restarts_from_head (qABC.remove).2 (by decide) (by decide)

/-! ## Player lemmas -/

namespace PlayerState

theorem renderStep_current (s : PlayerState) (n : ℕ) :
    (s.renderStep n).current = s.current := by
  unfold renderStep; split <;> rfl

theorem renderStep_doneSignal (s : PlayerState) (n : ℕ) :
    (s.renderStep n).doneSignal = s.doneSignal := by
  unfold renderStep; split <;> rfl

theorem renderSteps_current (s : PlayerState) (ns : List ℕ) :
    (s.renderSteps ns).current = s.current := by
  induction ns generalizing s with
  | nil => rfl
  | cons n ns ih =>
      show ((s.renderStep n).renderSteps ns).current = s.current
      rw [ih, renderStep_current]

theorem renderSteps_doneSignal (s : PlayerState) (ns : List ℕ) :
    (s.renderSteps ns).doneSignal = s.doneSignal := by
  induction ns generalizing s with
  | nil => rfl
  | cons n ns ih =>
      show ((s.renderStep n).renderSteps ns).doneSignal = s.doneSignal
      rw [ih, renderStep_doneSignal]

/-- A successful `Play` fully determines the resulting state. -/
theorem play_ok_state (s : PlayerState) (env : PlayEnv) (info : NowPlaying)
    (s' : PlayerState) (h : s.play env info = Except.ok s') :
    s' = { current := some info, ctrlPaused := some false, streamerOpen := true,
           bodyOpen := true, trackerPos := some 0, playing := true,
           doneSignal := false } := by
  unfold play at h
  split at h
  · simp at h
  · split_ifs at h
    dsimp only at h
    split at h
    · simp at h
    · rw [Except.ok.injEq] at h
      exact h.symm

end PlayerState

/-! ## Claim theorems: Player -/

/-- C2 (counterexample to the claim as stated): after a session completes
naturally, `Current()` still returns the finished track — the completion
callback does not clear the `NowPlaying`. -/
theorem completion_does_not_clear_current :
    ((PlayerState.initial.playState ⟨some 200, some 44100⟩ npA).onComplete).currentNP
      ≠ none := by
  decide

/-- C2 (amended): when the stream of a session started by a successful
`Play` is exhausted (after any sequence of render steps), the completion
callback marks the session not playing and fires the completion signal
exactly once for that session: the `done` channel, drained by `Play`, is
empty before the callback and holds exactly the one signal afterwards.
`Current()` keeps returning the finished track until `Stop` or the next
`Play`. -/
theorem completion_signals_once (s : PlayerState) (env : PlayerState.PlayEnv)
    (info : NowPlaying) (s' : PlayerState)
    (hs : s.play env info = Except.ok s') (ns : List ℕ) :
    (s'.renderSteps ns).doneSignal = false ∧
    ((s'.renderSteps ns).onComplete).doneSignal = true ∧
    ((s'.renderSteps ns).onComplete).playing = false ∧
    ((s'.renderSteps ns).onComplete).currentNP = some info := by
  have h' := PlayerState.play_ok_state s env info s' hs
  have hdone : (s'.renderSteps ns).doneSignal = false := by
    rw [PlayerState.renderSteps_doneSignal, h']
  refine ⟨hdone, ?_, rfl, ?_⟩
  · unfold PlayerState.onComplete
    rw [hdone]
    rfl
  · show (s'.renderSteps ns).current = some info
    rw [PlayerState.renderSteps_current, h']

/-- Witness for C2 (amended): a concrete completed session. -/
theorem completion_signals_once_witness :
    ((PlayerState.initial.playState ⟨some 200, some 44100⟩ npA).renderSteps
        [512, 512]).doneSignal = false ∧
    (((PlayerState.initial.playState ⟨some 200, some 44100⟩ npA).renderSteps
        [512, 512]).onComplete).doneSignal = true ∧
    (((PlayerState.initial.playState ⟨some 200, some 44100⟩ npA).renderSteps
        [512, 512]).onComplete).playing = false ∧
    (((PlayerState.initial.playState ⟨some 200, some 44100⟩ npA).renderSteps
        [512, 512]).onComplete).currentNP = some npA :=
  completion_signals_once PlayerState.initial ⟨some 200, some 44100⟩ npA
    (PlayerState.initial.playState ⟨some 200, some 44100⟩ npA) (by rfl) [512, 512]

/-- C3: a connection error, a non-200 HTTP status, or a decoder
initialization failure makes `Play` return the matching typed error
synchronously and leaves the player in Idle: `Current()` is none,
`Elapsed()` is 0, the opened body and the decoder are closed, no partial
session exists, and no completion signal fires (the `done` channel is
exactly as it was). -/
theorem play_failure_leaves_idle (s : PlayerState) (env : PlayerState.PlayEnv)
    (info : NowPlaying) :
    (env.openResult = none →
       s.play env info = Except.error PlayerState.PlayError.connectError) ∧
    (∀ c, env.openResult = some c → c ≠ 200 →
       s.play env info = Except.error (PlayerState.PlayError.statusError c)) ∧
    (env.openResult = some 200 → env.decodeRate = none →
       s.play env info = Except.error PlayerState.PlayError.decodeError) ∧
    ((∃ e, s.play env info = Except.error e) →
       (s.playState env info).currentNP = none ∧
       (s.playState env info).elapsed = 0 ∧
       (s.playState env info).bodyOpen = false ∧
       (s.playState env info).streamerOpen = false ∧
       (s.playState env info).ctrlPaused = none ∧
       (s.playState env info).playing = false ∧
       (s.playState env info).doneSignal = s.doneSignal) := by
  refine ⟨?_, ?_, ?_, ?_⟩
  · intro h
    unfold PlayerState.play
    rw [h]
  · intro c hc h200
    unfold PlayerState.play
    rw [hc]
    dsimp only
    rw [if_pos h200]
  · intro hc hd
    unfold PlayerState.play
    rw [hc, hd]
    dsimp only
    rw [if_neg (by omega)]
  · rintro ⟨e, he⟩
    unfold PlayerState.playState
    rw [he]
    exact ⟨rfl, rfl, rfl, rfl, rfl, rfl, rfl⟩

/-- Witness for C3: a concrete failing open (HTTP 404) returns the status
error and leaves the idle state. -/
theorem play_failure_leaves_idle_witness :
    (PlayerState.initial.play ⟨some 404, some 44100⟩ npA =
       Except.error (PlayerState.PlayError.statusError 404)) ∧
    (PlayerState.initial.playState ⟨some 404, some 44100⟩ npA).currentNP = none ∧
    (PlayerState.initial.playState ⟨some 404, some 44100⟩ npA).doneSignal =
      PlayerState.initial.doneSignal := by
  have h := play_failure_leaves_idle PlayerState.initial ⟨some 404, some 44100⟩ npA
  have he := h.2.1 404 rfl (by decide)
  have hrest := h.2.2.2 ⟨PlayerState.PlayError.statusError 404, he⟩
  exact ⟨he, hrest.1, hrest.2.2.2.2.2.2⟩

/-- C7: `Stop()` is idempotent and a no-op on an idle player, and after it
`Elapsed()` returns 0, `Current()` returns none, and the decoder and the
underlying network body are closed. -/
theorem stop_spec (s : PlayerState) :
    s.stop.stop = s.stop ∧
    s.stop.elapsed = 0 ∧
    s.stop.currentNP = none ∧
    s.stop.streamerOpen = false ∧
    s.stop.bodyOpen = false ∧
    (s.ctrlPaused = none ∧ s.current = none ∧ s.streamerOpen = false ∧
       s.bodyOpen = false ∧ s.trackerPos = none ∧ s.playing = false →
       s.stop = s) := by
  refine ⟨rfl, rfl, rfl, rfl, rfl, ?_⟩
  rintro ⟨h1, h2, h3, h4, h5, h6⟩
  cases s
  simp only [PlayerState.stop, PlayerState.cleanup] at *
  simp_all

/-- Witness for C7: stopping a live session leaves the idle state, and a
second `Stop` on the now-idle player is a no-op. -/
theorem stop_spec_witness :
    (PlayerState.initial.playState ⟨some 200, some 44100⟩ npA).stop.stop =
      (PlayerState.initial.playState ⟨some 200, some 44100⟩ npA).stop ∧
    (PlayerState.initial.playState ⟨some 200, some 44100⟩ npA).stop.elapsed = 0 ∧
    (PlayerState.initial.playState ⟨some 200, some 44100⟩ npA).stop.currentNP = none ∧
    PlayerState.initial.stop = PlayerState.initial := by
  have h := stop_spec (PlayerState.initial.playState ⟨some 200, some 44100⟩ npA)
  have h0 := stop_spec PlayerState.initial
  exact ⟨h.1, h.2.1, h.2.2.1, h0.2.2.2.2.2 (by decide)⟩

/-- C8: while a session is active, `Elapsed()` equals the frames consumed
so far divided by the fixed output sample rate; across render steps it is
monotonically non-decreasing, and a paused render step leaves it (and the
frame counter) unchanged. -/
theorem elapsed_spec (s : PlayerState) :
    (∀ pos, s.trackerPos = some pos →
       s.elapsed = (pos : ℚ) / (sampleRate : ℚ)) ∧
    (∀ n, s.elapsed ≤ (s.renderStep n).elapsed) ∧
    (s.ctrlPaused = some true → ∀ n, s.renderStep n = s) ∧
    (∀ ns, s.elapsed ≤ (s.renderSteps ns).elapsed) := by
  have hstep : ∀ t : PlayerState, ∀ n : ℕ, t.elapsed ≤ (t.renderStep n).elapsed := by
    intro t n
    unfold PlayerState.renderStep
    split
    · rename_i pos heq₁ heq₂
      unfold PlayerState.elapsed
      rw [heq₂]
      dsimp only
      apply div_le_div_of_nonneg_right ?_ (by norm_num)
      push_cast
      linarith
    · exact le_refl _
  refine ⟨?_, hstep s, ?_, ?_⟩
  · intro pos hpos
    unfold PlayerState.elapsed
    rw [hpos]
  · intro hp n
    unfold PlayerState.renderStep
    rw [hp]
  · intro ns
    induction ns generalizing s with
    | nil => exact le_refl _
    | cons n ns ih =>
        calc s.elapsed ≤ (s.renderStep n).elapsed := hstep s n
          _ ≤ ((s.renderStep n).renderSteps ns).elapsed := ih (s.renderStep n)

/-- Witness for C8: a concrete session that rendered 1024 frames reports
1024/44100 seconds, does not decrease on a further step, and freezes when
paused. -/
theorem elapsed_spec_witness :
    ((PlayerState.initial.playState ⟨some 200, some 44100⟩ npA).renderSteps
        [512, 512]).elapsed = ((1024 : ℕ) : ℚ) / (sampleRate : ℚ) ∧
    ((PlayerState.initial.playState ⟨some 200, some 44100⟩ npA).renderSteps
        [512, 512]).elapsed ≤
      (((PlayerState.initial.playState ⟨some 200, some 44100⟩ npA).renderSteps
        [512, 512]).renderStep 256).elapsed ∧
    (((PlayerState.initial.playState ⟨some 200, some 44100⟩ npA).renderSteps
        [512, 512]).togglePause).renderStep 256 =
      ((PlayerState.initial.playState ⟨some 200, some 44100⟩ npA).renderSteps
        [512, 512]).togglePause := by
  refine ⟨?_, ?_, ?_⟩
  · exact (elapsed_spec ((PlayerState.initial.playState ⟨some 200, some 44100⟩
      npA).renderSteps [512, 512])).1 1024 (by rfl)
  · exact (elapsed_spec ((PlayerState.initial.playState ⟨some 200, some 44100⟩
      npA).renderSteps [512, 512])).2.1 256
  · exact (elapsed_spec (((PlayerState.initial.playState ⟨some 200, some 44100⟩
      npA).renderSteps [512, 512]).togglePause)).2.2.1 (by rfl) 256

end Kitsune
